import Mathlib

/-!
Verification of the trading-assistant core pipeline
(`Crypto_Momouss.py`, `strategies/Crypto-Momouss.py`,
`.github/Crypto_Momouss.py`, `.github/workflows/Crypto_Momouss.py`).

Numeric values are modelled by `ℚ` (an exact idealization of the Python
floats), NaN/undefined entries by `Option ℚ`, and a pandas data frame by a
list of rows.  Dates are modelled as integers (only their identity matters
to the claims).
-/

set_option maxRecDepth 1000000

/-- One bar of a normalized price series: the `date` and `close` columns of
the data frames produced by the source adapters.  (The Binance adapters also
carry `open/high/low/volume`; those columns are always non-null and are
never read by the indicator or signal code, so they are omitted.) -/
structure Bar where
  date : Int
  close : ℚ
deriving DecidableEq, Repr

/-- A row of the augmented frame produced by `calculate_technical_indicators`
(strategies variant) after `dropna()`: every indicator column is defined. -/
structure AugRow where
  date : Int
  close : ℚ
  rsi : ℚ
  ma50 : ℚ
  ma200 : ℚ
  bb_upper : ℚ
  bb_lower : ℚ
  pct_change_1d : ℚ
  volatility : ℚ
deriving DecidableEq, Repr

/-- A signal record as appended by `generate_trading_signals`:
`{"type": ..., "title": ..., "details": [...]}`. -/
structure SignalRecord where
  type : String
  title : String
  details : List String
deriving DecidableEq, Repr

/-- Close of the `t`-th bar; total (out-of-range reads default to `0`, but
every definition below only reads indices inside the series). -/
def valAt (closes : List ℚ) (t : Nat) : ℚ := (closes.get? t).getD 0

/-- Modelled from the spec: square root on `ℚ`, used by the rolling
standard deviations (Bollinger bands, volatility).  The Python code takes a
float square root; here the root is exact whenever the radicand is the
square of a rational (which covers every input the theorems below evaluate,
all of variance `0`), and a floor-style approximation otherwise. -/
def ratSqrt (q : ℚ) : ℚ := (Nat.sqrt q.num.toNat : ℚ) / (Nat.sqrt q.den : ℚ)

/-- Sample standard deviation (pandas `Series.std()`, `ddof = 1`) of a list
of values, via `ratSqrt`. -/
def stdSample (l : List ℚ) : ℚ :=
  let n : ℚ := l.length
  let m : ℚ := l.sum / n
  ratSqrt ((l.map (fun x => (x - m) ^ 2)).sum / (n - 1))

/-- Population standard deviation (`ddof = 0`, as used by
`ta.volatility.BollingerBands`) of a list of values, via `ratSqrt`. -/
def stdPop (l : List ℚ) : ℚ :=
  let n : ℚ := l.length
  let m : ℚ := l.sum / n
  ratSqrt ((l.map (fun x => (x - m) ^ 2)).sum / n)

/-- Modelled from the spec: `close.diff(1)` at index `t`.  pandas yields NaN
at index 0; the `ta` RSI code immediately maps that NaN to `0.0` through
`diff.where(diff > 0, 0.0)`, so the index-0 entry is represented by `0`
directly. -/
def diffF (closes : List ℚ) (t : Nat) : ℚ :=
  if t = 0 then 0 else valAt closes t - valAt closes (t - 1)

/-- Upward move `diff.where(diff > 0, 0.0)` feeding the RSI numerator. -/
def upF (closes : List ℚ) (t : Nat) : ℚ :=
  if 0 < diffF closes t then diffF closes t else 0

/-- Downward move `-diff.where(diff < 0, -0.0)` feeding the RSI denominator. -/
def dnF (closes : List ℚ) (t : Nat) : ℚ :=
  if diffF closes t < 0 then -diffF closes t else 0

/-- Modelled from the spec: exponentially weighted mean with smoothing
factor `a` (`Series.ewm(alpha=a, adjust=False).mean()`), recursively
`e₀ = x₀`, `eₜ₊₁ = (1 − a)·eₜ + a·xₜ₊₁`. -/
def emaAt (a : ℚ) (x : Nat → ℚ) : Nat → ℚ
  | 0 => x 0
  | t + 1 => (1 - a) * emaAt a x t + a * x (t + 1)

/-- Modelled from the spec: Wilder-style RSI over `close` with window `w`
(`ta.momentum.RSIIndicator(close, window=w).rsi()`): smoothed average gain
and loss with `alpha = 1/w` (`min_periods = w`, so the first `w − 1`
entries are undefined), `RSI = 100 − 100/(1 + gain/loss)`, and `RSI = 100`
by the standard Wilder convention when the average loss is `0`. -/
def rsiF (closes : List ℚ) (w : Nat) (t : Nat) : Option ℚ :=
  if w ≤ t + 1 then
    let u := emaAt (1 / w) (upF closes) t
    let d := emaAt (1 / w) (dnF closes) t
    some (if d = 0 then 100 else 100 - 100 / (1 + u / d))
  else none

/-- Trailing window of `w` closes ending at index `t` (defined when
`w ≤ t + 1`). -/
def windowAt (closes : List ℚ) (w t : Nat) : List ℚ :=
  (closes.drop (t + 1 - w)).take w

/-- Modelled from the spec: simple moving average over `close` with window
`w` (`ta.trend.SMAIndicator` / `sma_indicator`, `min_periods = w`):
undefined before index `w − 1`, else the mean of the trailing `w` closes. -/
def smaF (closes : List ℚ) (w : Nat) (t : Nat) : Option ℚ :=
  if w ≤ t + 1 then some ((windowAt closes w t).sum / w) else none

/-- Modelled from the spec: upper Bollinger band
(`ta.volatility.BollingerBands(close, window=w, window_dev=dev)
.bollinger_hband()`): rolling mean plus `dev` times the rolling population
standard deviation. -/
def bbUpperF (closes : List ℚ) (w dev : Nat) (t : Nat) : Option ℚ :=
  if w ≤ t + 1 then
    some ((windowAt closes w t).sum / w + dev * stdPop (windowAt closes w t))
  else none

/-- Lower Bollinger band (`bollinger_lband()`). -/
def bbLowerF (closes : List ℚ) (w dev : Nat) (t : Nat) : Option ℚ :=
  if w ≤ t + 1 then
    some ((windowAt closes w t).sum / w - dev * stdPop (windowAt closes w t))
  else none

/-- Raw `close.pct_change()` at index `t` (undefined at index 0). -/
def rawPctF (closes : List ℚ) (t : Nat) : Option ℚ :=
  if t = 0 then none
  else some ((valAt closes t - valAt closes (t - 1)) / valAt closes (t - 1))

/-- The `pct_change_1d` column: `close.pct_change() * 100`. -/
def pctF (closes : List ℚ) (t : Nat) : Option ℚ :=
  (rawPctF closes t).map (· * 100)

/-- Modelled from the spec: the `volatility` column
`close.pct_change().rolling(14).std() * 100`: defined when the trailing
window of 14 percent changes is fully defined (pandas `min_periods =
window`), as the sample standard deviation of that window times 100. -/
def volF (closes : List ℚ) (t : Nat) : Option ℚ :=
  if ((List.range 14).map fun j => rawPctF closes (t - 13 + j)).all Option.isSome then
    some (stdSample ((((List.range 14).map fun j => rawPctF closes (t - 13 + j))).map (·.getD 0)) * 100)
  else none

/-- Python fixed-point formatting `f"{q:.prec f}"` on the exact rational:
rounded to `prec` decimal places.  (CPython rounds the underlying binary
float half-to-even; on the exact values appearing below the two agree.) -/
def fmtFixed (prec : Nat) (q : ℚ) : String :=
  let p : Nat := 10 ^ prec
  let r : ℤ := round (q * (p : ℚ))
  let sign := if r < 0 then "-" else ""
  let a := r.natAbs
  let fpStr := toString (a % p)
  let fpPad := String.mk (List.replicate (prec - fpStr.length) '0') ++ fpStr
  sign ++ toString (a / p) ++ "." ++ fpPad

/-- `df['ma50'].diff(3).mean()` as evaluated inside
`generate_trading_signals`: the 3-lag differences of the `ma50` column
(NaN for the first three rows, which pandas `mean()` skips), `none` when no
difference is defined (the pandas result is then NaN). -/
def ma50Diff3Mean (df : List AugRow) : Option ℚ :=
  let m : Nat → ℚ := fun i => ((df.get? i).map (·.ma50)).getD 0
  let diffs : List (Option ℚ) := (List.range df.length).map fun i =>
    if 3 ≤ i then some (m i - m (i - 3)) else none
  let vals := diffs.filterMap id
  if vals.length = 0 then none else some (vals.sum / (vals.length : ℚ))

/-- `generate_trading_signals` of `strategies/Crypto-Momouss.py` (lines
150-192): on the empty frame returns `[]`; otherwise evaluates the buy
condition (`pct_change_1d < -5` and `close > ma200` and `volatility > 15`)
and the sell condition (`rsi > 70` and `close > bb_upper` and
`ma50.diff(3).mean() > 2`) on the latest row and appends the matching
records (buy first, then sell). -/
def generate_trading_signals (df : List AugRow) : List SignalRecord :=
  match df.getLast? with
  | none => []
  | some latest =>
    let buyCond := decide (latest.pct_change_1d < -5) &&
      decide (latest.close > latest.ma200) && decide (latest.volatility > 15)
    let buyPart : List SignalRecord :=
      if buyCond then
        [{ type := "buy"
           title := "🟥 ACHAT - Correction Brutale"
           details := ["RSI: " ++ fmtFixed 1 latest.rsi,
                       "Volatilité: " ++ fmtFixed 1 latest.volatility ++ "%",
                       "Distance MA200: " ++
                         fmtFixed 1 ((latest.close / latest.ma200 - 1) * 100) ++ "%"] }]
      else []
    let slope := ma50Diff3Mean df
    let sellCond := decide (latest.rsi > 70) &&
      decide (latest.close > latest.bb_upper) &&
      (match slope with
       | some mn => decide (mn > 2)
       | none => false)
    let sellPart : List SignalRecord :=
      if sellCond then
        [{ type := "sell"
           title := "🟩 VENTE - Surachat"
           details := ["RSI: " ++ fmtFixed 1 latest.rsi,
                       "Bande Sup BB: " ++ fmtFixed 2 latest.bb_upper,
                       "Pente MA50: " ++ fmtFixed 1 (slope.getD 0) ++ "%"] }]
      else []
    buyPart ++ sellPart

/-- Placeholder bar for total out-of-range reads (never hit on the indices
actually used). -/
def bar0 : Bar := ⟨0, 0⟩

/-- The `close` column of a normalized series. -/
def closesOf (bars : List Bar) : List ℚ := bars.map (·.close)

/-- Whether row `t` survives the `dropna()` of
`calculate_technical_indicators`: every one of the seven indicator columns
is defined there. -/
def stratSurvive (bars : List Bar) (t : Nat) : Bool :=
  let c := closesOf bars
  (rsiF c 14 t).isSome && (smaF c 50 t).isSome && (smaF c 200 t).isSome &&
  (bbUpperF c 20 2 t).isSome && (bbLowerF c 20 2 t).isSome &&
  (pctF c t).isSome && (volF c t).isSome

/-- Row `t` of the frame augmented by `calculate_technical_indicators`
(values extracted; rows are only materialized after `dropna()`, where all
columns are defined). -/
def stratRow (bars : List Bar) (t : Nat) : AugRow :=
  let c := closesOf bars
  { date := ((bars.get? t).getD bar0).date
    close := valAt c t
    rsi := (rsiF c 14 t).getD 0
    ma50 := (smaF c 50 t).getD 0
    ma200 := (smaF c 200 t).getD 0
    bb_upper := (bbUpperF c 20 2 t).getD 0
    bb_lower := (bbLowerF c 20 2 t).getD 0
    pct_change_1d := (pctF c t).getD 0
    volatility := (volF c t).getD 0 }

/-- `calculate_technical_indicators` of `strategies/Crypto-Momouss.py`
(lines 124-148), non-exceptional path: adds `rsi`, `ma50`, `ma200`,
`bb_upper`, `bb_lower`, `pct_change_1d`, `volatility` columns over `close`
and returns `df.dropna()`.  (The workflows variant computes the identical
columns and ends in `df.dropna().copy()`.) -/
def calculate_technical_indicators (bars : List Bar) : List AugRow :=
  ((List.range bars.length).filter (stratSurvive bars)).map (stratRow bars)

/-- `get_crypto_data` of `Crypto_Momouss.py` (lines 206-222): iterates the
`sources` dict in order; each entry is modelled by the adapter's name paired
with what invoking it returns (`none` = the adapter failed and returned
`None`).  The first adapter whose frame is neither `None` nor empty wins:
its frame is returned together with its name (the `Source:` provenance
badge).  The second component of the result lists the adapters actually
invoked, in order.  If every source fails, the function returns `None`. -/
def get_crypto_data :
    List (String × Option (List Bar)) → Option (String × List Bar) × List String
  | [] => (none, [])
  | (src, res) :: rest =>
    match res with
    | some df =>
      if df.isEmpty then
        let r := get_crypto_data rest
        (r.1, src :: r.2)
      else (some (src, df), [src])
    | none =>
      let r := get_crypto_data rest
      (r.1, src :: r.2)

/-- The per-indicator parameters selected in the sidebar of
`Crypto_Momouss.py` and passed to `calculate_indicators` as
`indicators_config`: `none` means the indicator's checkbox is off (its
columns are not computed). -/
structure IndicatorsConfig where
  rsi : Option Nat
  macd : Option (Nat × Nat × Nat)
  bollinger : Option (Nat × Nat)
deriving DecidableEq, Repr

/-- Modelled from the spec: `Series.ewm(span=s, adjust=False).mean()` as
used by `ta.trend.MACD`, i.e. `emaAt` with `alpha = 2/(s+1)`. -/
def emaSpan (s : Nat) (closes : List ℚ) (t : Nat) : ℚ :=
  emaAt (2 / (s + 1)) (valAt closes) t

/-- Modelled from the spec: the MACD line `EMA(fast) − EMA(slow)`
(`ta.trend.MACD(...).macd()`), undefined until both EMAs have
`min_periods` observations. -/
def macdF (closes : List ℚ) (f s t : Nat) : Option ℚ :=
  if max f s ≤ t + 1 then some (emaSpan f closes t - emaSpan s closes t)
  else none

/-- Modelled from the spec: the MACD signal line, an EMA (span `g`) of the
MACD line; the smoothing starts at the first defined MACD entry (index
`max f s − 1`), matching pandas' skipping of the leading NaNs, and needs
`g` observations of the MACD line. -/
def macdSignalF (closes : List ℚ) (f s g t : Nat) : Option ℚ :=
  let start := max f s - 1
  if max f s + g ≤ t + 2 then
    some (emaAt (2 / (g + 1))
      (fun i => emaSpan f closes (start + i) - emaSpan s closes (start + i))
      (t - start))
  else none

/-- The MACD histogram `macd() − macd_signal()`
(`ta.trend.MACD(...).macd_diff()`). -/
def macdHistF (closes : List ℚ) (f s g t : Nat) : Option ℚ :=
  match macdF closes f s t, macdSignalF closes f s g t with
  | some a, some b => some (a - b)
  | _, _ => none

/-- A row of the frame produced by `calculate_indicators` of
`Crypto_Momouss.py`: the optional indicator columns are `none` both when
the column is not configured and (before `dropna()`) when the entry is
NaN; `ma20/ma50/ma100` and `volatility` are always computed. -/
structure MainRow where
  date : Int
  close : ℚ
  rsi : Option ℚ
  macd : Option ℚ
  macd_signal : Option ℚ
  macd_hist : Option ℚ
  bb_upper : Option ℚ
  bb_lower : Option ℚ
  bb_mid : Option ℚ
  ma20 : Option ℚ
  ma50 : Option ℚ
  ma100 : Option ℚ
  volatility : Option ℚ
deriving DecidableEq, Repr

/-- Whether row `t` survives the `dropna()` of `calculate_indicators`:
every column that is actually present in the frame (the configured
optional indicators, the three unconditional moving averages and the
volatility) is defined at `t`. -/
def mainSurvive (cfg : IndicatorsConfig) (bars : List Bar) (t : Nat) : Bool :=
  let c := closesOf bars
  (match cfg.rsi with
   | some w => (rsiF c w t).isSome
   | none => true) &&
  (match cfg.macd with
   | some (f, s, g) =>
     (macdF c f s t).isSome && (macdSignalF c f s g t).isSome &&
     (macdHistF c f s g t).isSome
   | none => true) &&
  (match cfg.bollinger with
   | some (w, dev) =>
     (bbUpperF c w dev t).isSome && (bbLowerF c w dev t).isSome &&
     (smaF c w t).isSome
   | none => true) &&
  (smaF c 20 t).isSome && (smaF c 50 t).isSome && (smaF c 100 t).isSome &&
  (volF c t).isSome

/-- Row `t` of the frame augmented by `calculate_indicators`. -/
def mainRow (cfg : IndicatorsConfig) (bars : List Bar) (t : Nat) : MainRow :=
  let c := closesOf bars
  { date := ((bars.get? t).getD bar0).date
    close := valAt c t
    rsi := match cfg.rsi with
      | some w => rsiF c w t
      | none => none
    macd := match cfg.macd with
      | some (f, s, _) => macdF c f s t
      | none => none
    macd_signal := match cfg.macd with
      | some (f, s, g) => macdSignalF c f s g t
      | none => none
    macd_hist := match cfg.macd with
      | some (f, s, g) => macdHistF c f s g t
      | none => none
    bb_upper := match cfg.bollinger with
      | some (w, dev) => bbUpperF c w dev t
      | none => none
    bb_lower := match cfg.bollinger with
      | some (w, dev) => bbLowerF c w dev t
      | none => none
    bb_mid := match cfg.bollinger with
      | some (w, _) => smaF c w t
      | none => none
    ma20 := smaF c 20 t
    ma50 := smaF c 50 t
    ma100 := smaF c 100 t
    volatility := volF c t }

/-- `calculate_indicators` of `Crypto_Momouss.py` (lines 228-255),
non-exceptional path: computes the configured optional indicators, the
moving averages for `MA_WINDOWS = [20, 50, 100]` and the volatility over
`close`, and returns `df.dropna()`. -/
def calculate_indicators (cfg : IndicatorsConfig) (bars : List Bar) : List MainRow :=
  ((List.range bars.length).filter (mainSurvive cfg bars)).map (mainRow cfg bars)

/-- The `date`/`close` pair of a `MainRow`, as fed back to
`calculate_indicators` when its own output is re-analyzed. -/
def mainRowBar (r : MainRow) : Bar := ⟨r.date, r.close⟩

/-- A data frame as mutated in place by `calculate_technical_indicators`:
each indicator column is `none` while it has not been assigned yet (in
pandas terms, the column does not exist), and a list of per-row entries
once assigned. -/
structure StratFrame where
  bars : List Bar
  rsi : Option (List (Option ℚ))
  ma50 : Option (List (Option ℚ))
  ma200 : Option (List (Option ℚ))
  bb_upper : Option (List (Option ℚ))
  bb_lower : Option (List (Option ℚ))
  pct_change_1d : Option (List (Option ℚ))
  volatility : Option (List (Option ℚ))
deriving DecidableEq, Repr

/-- A column of `n` entries given by the per-index function `f`. -/
def colList (f : Nat → Option ℚ) (n : Nat) : List (Option ℚ) :=
  (List.range n).map f

/-- The frame of `calculate_technical_indicators` after its first `k`
column assignments (source order: `rsi`, `ma50`, `ma200`, `bb_upper`,
`bb_lower`, `pct_change_1d`, `volatility`), before `dropna()`. -/
def stratFrameAt (k : Nat) (bars : List Bar) : StratFrame :=
  let c := closesOf bars
  let n := bars.length
  { bars := bars
    rsi := if 1 ≤ k then some (colList (rsiF c 14) n) else none
    ma50 := if 2 ≤ k then some (colList (smaF c 50) n) else none
    ma200 := if 3 ≤ k then some (colList (smaF c 200) n) else none
    bb_upper := if 4 ≤ k then some (colList (bbUpperF c 20 2) n) else none
    bb_lower := if 5 ≤ k then some (colList (bbLowerF c 20 2) n) else none
    pct_change_1d := if 6 ≤ k then some (colList (pctF c) n) else none
    volatility := if 7 ≤ k then some (colList (volF c) n) else none }

/-- The fully augmented and `dropna()`-ed frame of
`calculate_technical_indicators`, repackaged as a `StratFrame` (all seven
columns present and defined on every surviving row). -/
def stratFrameDone (bars : List Bar) : StratFrame :=
  let rows := calculate_technical_indicators bars
  { bars := rows.map fun r => ⟨r.date, r.close⟩
    rsi := some (rows.map fun r => some r.rsi)
    ma50 := some (rows.map fun r => some r.ma50)
    ma200 := some (rows.map fun r => some r.ma200)
    bb_upper := some (rows.map fun r => some r.bb_upper)
    bb_lower := some (rows.map fun r => some r.bb_lower)
    pct_change_1d := some (rows.map fun r => some r.pct_change_1d)
    volatility := some (rows.map fun r => some r.volatility) }

/-- `calculate_technical_indicators` of `strategies/Crypto-Momouss.py`
with its exceptional control flow made explicit: `failStep = some k`
(`k < 7`) means an exception is raised while computing the `k`-th column,
at which point the `except` branch executes `return df` — returning the
input frame as mutated so far, i.e. with the first `k` indicator columns
already assigned and no `dropna()` applied. -/
def calculate_technical_indicators_exn (failStep : Option Nat) (bars : List Bar) :
    StratFrame :=
  match failStep with
  | some k => if k < 7 then stratFrameAt k bars else stratFrameDone bars
  | none => stratFrameDone bars

/-- `calculate_technical_indicators` of
`.github/workflows/Crypto_Momouss.py` (lines 79-103) with explicit
exceptional control flow: identical columns, but its `except` branch
executes `return pd.DataFrame()` — an empty frame. -/
def calculate_technical_indicators_wf (failStep : Option Nat) (bars : List Bar) :
    List AugRow :=
  match failStep with
  | some k => if k < 7 then [] else calculate_technical_indicators bars
  | none => calculate_technical_indicators bars

/-- Number of column-assignment steps `calculate_indicators` of
`Crypto_Momouss.py` executes for a given configuration (one for RSI, three
for MACD, three for Bollinger Bands when configured; the three
`MA_WINDOWS` averages and the volatility always). -/
def mainStepCount (cfg : IndicatorsConfig) : Nat :=
  (match cfg.rsi with
   | some _ => 1
   | none => 0) +
  (match cfg.macd with
   | some _ => 3
   | none => 0) +
  (match cfg.bollinger with
   | some _ => 3
   | none => 0) + 4

/-- `calculate_indicators` of `Crypto_Momouss.py` with explicit
exceptional control flow: its `except` branch executes `return None`, so
an exception at any step (`failStep = some k`, `k < mainStepCount cfg`)
yields `none` — never a partially augmented frame. -/
def calculate_indicators_exn (failStep : Option Nat) (cfg : IndicatorsConfig)
    (bars : List Bar) : Option (List MainRow) :=
  match failStep with
  | some k =>
    if k < mainStepCount cfg then none else some (calculate_indicators cfg bars)
  | none => some (calculate_indicators cfg bars)

/-- A row of the frame handed to `get_ia_trading_advice`, with all the
columns the function reads present (`rsi`, `macd`, `macd_signal`, `close`,
`ma20`, `ma50`). -/
structure AdviceRow where
  close : ℚ
  rsi : ℚ
  macd : ℚ
  macd_signal : ℚ
  ma20 : ℚ
  ma50 : ℚ
deriving DecidableEq, Repr

/-- Placeholder advice row for total out-of-range reads. -/
def adviceRow0 : AdviceRow := ⟨0, 0, 0, 0, 0, 0⟩

/-- `get_ia_trading_advice` of `Crypto_Momouss.py` (lines 260-312 and the
identical copy at lines 696-747).  The function reads `last_macd_hist` in
its MACD branch without ever assigning it; by Python's short-circuit
evaluation this raises `NameError` exactly when the latest `macd` differs
from the latest `macd_signal` (`last_macd > last_macd_signal` evaluates the
unbound name when true, otherwise the `elif`'s `last_macd <
last_macd_signal` does).  The exception is modelled by `Except.error`. -/
def get_ia_trading_advice (df : List AdviceRow) : Except String String :=
  if df.length < 2 then
    .ok "<div class='alert-box'>Données insuffisantes pour générer des conseils de trading IA.</div>"
  else
    let last := (df.getLast?).getD adviceRow0
    let prev := (df.get? (df.length - 2)).getD adviceRow0
    let price_change := last.close - prev.close
    let step1 : List String × String :=
      if price_change < 0 then
        (["🔴 **Baisse récente du prix :** Surveiller opportunité d'achat si d'autres indicateurs confirment."],
         "buy-signal")
      else if price_change > 0 then
        (["🟢 **Hausse récente du prix :**  Potentiel signal de vente si surachat ou prudence si résistance approche."],
         "sell-signal")
      else ([], "neutral-signal")
    let step2 : List String × String :=
      if last.rsi > 70 then
        (step1.1 ++ ["⚠️ **RSI élevé (surachat) :** Possible signal de vente ou de prudence."],
         if step1.2 = "neutral-signal" then "sell-signal" else step1.2)
      else if last.rsi < 30 then
        (step1.1 ++ ["✅ **RSI bas (survente) :** Possible signal d'achat."],
         if step1.2 = "neutral-signal" then "buy-signal" else step1.2)
      else step1
    if last.macd > last.macd_signal ∨ last.macd < last.macd_signal then
      .error "NameError: name 'last_macd_hist' is not defined"
    else
      let step3 : List String × String :=
        if last.close > last.ma20 ∧ last.close > last.ma50 then
          (step2.1 ++ ["🐂 **Prix au-dessus des MAs 20 et 50 :** Tendance potentiellement haussière."],
           step2.2)
        else if last.close < last.ma20 ∧ last.close < last.ma50 then
          (step2.1 ++ ["🐻 **Prix en-dessous des MAs 20 et 50 :** Tendance potentiellement baissière."],
           step2.2)
        else step2
      let advice :=
        if step3.1.isEmpty then
          "Neutre ou signaux mixtes. Analyse plus approfondie nécessaire."
        else String.intercalate "\n" step3.1
      let sig := if step3.1.isEmpty then "neutral-signal" else step3.2
      .ok ("<div class='advice-box " ++ sig ++
        "'><h3>💡 Conseils de Trading IA (Simulé)</h3><p>" ++ advice ++
        "</p><p><b>Dernier RSI (14j):</b> " ++ fmtFixed 2 last.rsi ++
        " | <b>Dernier MACD:</b> " ++ fmtFixed 2 last.macd ++
        " | <b>Dernier Signal MACD:</b> " ++ fmtFixed 2 last.macd_signal ++
        "</p><p><b>MA20:</b> " ++ fmtFixed 2 last.ma20 ++
        " | <b>MA50:</b> " ++ fmtFixed 2 last.ma50 ++
        " | <b>Prix actuel:</b> " ++ fmtFixed 2 last.close ++ "</p></div>")

/-! ### Definedness of the indicator columns -/

theorem rsiF_isSome (c : List ℚ) (w t : Nat) :
    (rsiF c w t).isSome = true ↔ w ≤ t + 1 := by
  unfold rsiF
  split <;> simp [*]

theorem smaF_isSome (c : List ℚ) (w t : Nat) :
    (smaF c w t).isSome = true ↔ w ≤ t + 1 := by
  unfold smaF
  split <;> simp [*]

theorem bbUpperF_isSome (c : List ℚ) (w dev t : Nat) :
    (bbUpperF c w dev t).isSome = true ↔ w ≤ t + 1 := by
  unfold bbUpperF
  split <;> simp [*]

theorem bbLowerF_isSome (c : List ℚ) (w dev t : Nat) :
    (bbLowerF c w dev t).isSome = true ↔ w ≤ t + 1 := by
  unfold bbLowerF
  split <;> simp [*]

theorem rawPctF_isSome (c : List ℚ) (t : Nat) :
    (rawPctF c t).isSome = true ↔ 1 ≤ t := by
  unfold rawPctF
  split <;> rename_i h
  · simp [h]
  · simp [h]
    omega

theorem pctF_isSome (c : List ℚ) (t : Nat) :
    (pctF c t).isSome = true ↔ 1 ≤ t := by
  rw [show (pctF c t).isSome = (rawPctF c t).isSome from by
    unfold pctF; cases rawPctF c t <;> rfl]
  exact rawPctF_isSome c t

theorem volF_isSome (c : List ℚ) (t : Nat) :
    (volF c t).isSome = true ↔ 14 ≤ t := by
  unfold volF
  split <;> rename_i h
  · simp only [Option.isSome_some, true_iff]
    have h0 := (List.all_eq_true.mp h) (rawPctF c (t - 13 + 0))
      (List.mem_map.mpr ⟨0, List.mem_range.mpr (by omega), rfl⟩)
    rw [rawPctF_isSome] at h0
    omega
  · simp only [Option.isSome_none, Bool.false_eq_true, false_iff]
    intro h14
    apply h
    rw [List.all_eq_true]
    rintro x hx
    obtain ⟨j, hj, rfl⟩ := List.mem_map.mp hx
    rw [List.mem_range] at hj
    rw [rawPctF_isSome]
    omega

/-! ### The `dropna()` boundary -/

theorem range_filter_ge (m n : Nat) :
    (List.range n).filter (fun t => decide (m ≤ t)) = (List.range n).drop m := by
  induction n with
  | zero => simp
  | succ n ih =>
    rw [List.range_succ, List.filter_append, ih]
    by_cases h : m ≤ n
    · rw [List.drop_append_of_le_length (by simpa using h)]
      simp [h]
    · have h1 : (List.range n).drop m = [] :=
        List.drop_eq_nil_of_le (by simpa using by omega)
      have h2 : ((List.range n).append [n]).drop m = [] :=
        List.drop_eq_nil_of_le (by simp; omega)
      simp only [h1, List.nil_append, h2, List.append_eq] at *
      simp [h, h2]

theorem stratSurvive_eq (bars : List Bar) (t : Nat) :
    stratSurvive bars t = decide (199 ≤ t) := by
  by_cases h : 199 ≤ t
  · have r1 := (rsiF_isSome (closesOf bars) 14 t).mpr (by omega)
    have r2 := (smaF_isSome (closesOf bars) 50 t).mpr (by omega)
    have r3 := (smaF_isSome (closesOf bars) 200 t).mpr (by omega)
    have r4 := (bbUpperF_isSome (closesOf bars) 20 2 t).mpr (by omega)
    have r5 := (bbLowerF_isSome (closesOf bars) 20 2 t).mpr (by omega)
    have r6 := (pctF_isSome (closesOf bars) t).mpr (by omega)
    have r7 := (volF_isSome (closesOf bars) t).mpr (by omega)
    simp [stratSurvive, r1, r2, r3, r4, r5, r6, r7, h]
  · have r3 : (smaF (closesOf bars) 200 t).isSome = false := by
      rw [Bool.eq_false_iff]
      intro hc
      exact absurd ((smaF_isSome (closesOf bars) 200 t).mp hc) (by omega)
    simp [stratSurvive, r3, h]

theorem calculate_technical_indicators_eq_drop (bars : List Bar) :
    calculate_technical_indicators bars =
      ((List.range bars.length).drop 199).map (stratRow bars) := by
  unfold calculate_technical_indicators
  rw [List.filter_congr (fun t _ => stratSurvive_eq bars t), range_filter_ge]

/-- The sidebar configuration with every optional indicator unchecked:
`calculate_indicators` then computes only `ma20`, `ma50`, `ma100` and
`volatility`. -/
def cfgNoExtras : IndicatorsConfig := ⟨none, none, none⟩

theorem mainSurvive_noExtras_eq (bars : List Bar) (t : Nat) :
    mainSurvive cfgNoExtras bars t = decide (99 ≤ t) := by
  by_cases h : 99 ≤ t
  · have r1 := (smaF_isSome (closesOf bars) 20 t).mpr (by omega)
    have r2 := (smaF_isSome (closesOf bars) 50 t).mpr (by omega)
    have r3 := (smaF_isSome (closesOf bars) 100 t).mpr (by omega)
    have r4 := (volF_isSome (closesOf bars) t).mpr (by omega)
    simp [mainSurvive, cfgNoExtras, r1, r2, r3, r4, h]
  · have r3 : (smaF (closesOf bars) 100 t).isSome = false := by
      rw [Bool.eq_false_iff]
      intro hc
      exact absurd ((smaF_isSome (closesOf bars) 100 t).mp hc) (by omega)
    simp [mainSurvive, cfgNoExtras, r3, h]

theorem calculate_indicators_noExtras_eq_drop (bars : List Bar) :
    calculate_indicators cfgNoExtras bars =
      ((List.range bars.length).drop 99).map (mainRow cfgNoExtras bars) := by
  unfold calculate_indicators
  rw [List.filter_congr (fun t _ => mainSurvive_noExtras_eq bars t), range_filter_ge]

theorem map_pair_eq (bars : List Bar) :
    bars.map (fun b => (b.date, b.close)) =
      (List.range bars.length).map
        (fun t => (((bars.get? t).getD bar0).date, valAt (closesOf bars) t)) := by
  apply List.ext_getElem (by simp)
  intro i h1 h2
  have h : i < bars.length := by simpa using h1
  have hg : bars[i]? = some bars[i] := List.getElem?_eq_getElem h
  have hc : (closesOf bars)[i]? = some bars[i].close := by
    rw [closesOf, List.getElem?_map, List.getElem?_eq_getElem h, Option.map_some']
  simp [List.getElem_map, List.getElem_range, valAt, List.get?_eq_getElem?, hg, hc]

/-- C10: indicator computation never alters `date` or `close` on the rows
it keeps: the `(date, close)` pairs of the frame returned by
`calculate_technical_indicators` form a sublist (same values, same order,
only rows removed) of the input's `(date, close)` pairs. -/
theorem indicators_preserve_date_close (bars : List Bar) :
    ((calculate_technical_indicators bars).map fun r => (r.date, r.close)).Sublist
      (bars.map fun b => (b.date, b.close)) := by
  rw [map_pair_eq]
  unfold calculate_technical_indicators
  rw [List.map_map]
  exact (List.filter_sublist _).map _

/-- A 200-bar series of constant close 1. -/
def bars200 : List Bar := (List.range 200).map fun i => ⟨i, 1⟩

/-- C5: for a positive-price series long enough for every requested
indicator, `dropna()` removes exactly `max(window) − 1 = 199` rows: the
augmented frame has `n − 199` rows. -/
theorem dropna_length_exact (bars : List Bar) (_h200 : 200 ≤ bars.length)
    (_hpos : ∀ b ∈ bars, 0 < b.close) :
    (calculate_technical_indicators bars).length = bars.length - 199 := by
  rw [calculate_technical_indicators_eq_drop, List.length_map, List.length_drop,
    List.length_range]

/-- Witness for C5 at the concrete 200-bar constant series. -/
theorem dropna_length_exact_witness :
    200 ≤ bars200.length ∧ (∀ b ∈ bars200, 0 < b.close) ∧
      (calculate_technical_indicators bars200).length = bars200.length - 199 :=
  ⟨by with_unfolding_all decide, by with_unfolding_all decide,
    dropna_length_exact bars200 (by with_unfolding_all decide)
      (by with_unfolding_all decide)⟩

/-- C1: the acquisition orchestrator invokes the adapters in priority
order, returns the first non-empty result tagged with that adapter's name,
never invokes the adapters after the first success, and returns `none`
(with every adapter having been invoked) when every adapter fails or
yields an empty series. -/
theorem get_crypto_data_first_success :
    (∀ (pre post : List (String × Option (List Bar))) (src : String) (df : List Bar),
      (∀ p ∈ pre, p.2 = none ∨ p.2 = some []) → df ≠ [] →
      get_crypto_data (pre ++ (src, some df) :: post) =
        (some (src, df), pre.map Prod.fst ++ [src])) ∧
    (∀ srcs : List (String × Option (List Bar)),
      (∀ p ∈ srcs, p.2 = none ∨ p.2 = some []) →
      get_crypto_data srcs = (none, srcs.map Prod.fst)) := by
  constructor
  · intro pre
    induction pre with
    | nil =>
      intro post src df _ hdf
      have he : df.isEmpty = false := by
        rw [List.isEmpty_eq_false]
        exact hdf
      simp [get_crypto_data, he]
    | cons hd tl ih =>
      intro post src df hpre hdf
      obtain ⟨nm, r⟩ := hd
      have hr := hpre (nm, r) (List.mem_cons_self _ _)
      have hrec := ih post src df (fun p hp => hpre p (List.mem_cons_of_mem _ hp)) hdf
      rcases hr with h | h <;> simp only at h <;> subst h <;>
        simp [get_crypto_data, hrec]
  · intro srcs
    induction srcs with
    | nil => intro _; rfl
    | cons hd tl ih =>
      intro hall
      obtain ⟨nm, r⟩ := hd
      have hr := hall (nm, r) (List.mem_cons_self _ _)
      have hrec := ih (fun p hp => hall p (List.mem_cons_of_mem _ hp))
      rcases hr with h | h <;> simp only at h <;> subst h <;>
        simp [get_crypto_data, hrec]

/-- Adapter line-up of the spec's fallback scenario: A fails, B succeeds
with data, C would succeed. -/
def adapterA : String × Option (List Bar) := ("CoinGecko", none)

/-- See `adapterA`. -/
def adapterB : String × Option (List Bar) := ("Binance", some [⟨0, 1⟩])

/-- See `adapterA`. -/
def adapterC : String × Option (List Bar) := ("Kraken", some [⟨0, 2⟩])

/-- Witness for C1: with A failing and B succeeding, the result carries
provenance B and C is never invoked. -/
theorem get_crypto_data_first_success_witness :
    (∀ p ∈ [adapterA], p.2 = none ∨ p.2 = some []) ∧ ([(⟨0, 1⟩ : Bar)] ≠ []) ∧
      get_crypto_data [adapterA, adapterB, adapterC] =
        (some ("Binance", [⟨0, 1⟩]), ["CoinGecko", "Binance"]) :=
  ⟨by decide, by decide, by
    have h := get_crypto_data_first_success.1 [adapterA] [adapterC] "Binance"
      [⟨0, 1⟩] (by decide) (by decide)
    simpa [adapterA, adapterB, adapterC] using h⟩

/-- C2 (amended): in the strategies signal engine the buy record is
emitted iff `pct_change_1d < -5` and `close > ma200` and
`volatility > 15` on the latest row (the trailing-3-bar-sum disjunct of
the spec appears only in the older `.github` variant). -/
theorem buy_signal_iff (df : List AugRow) (h : df ≠ []) :
    (∃ r ∈ generate_trading_signals df, r.type = "buy") ↔
      ((df.getLast h).pct_change_1d < -5 ∧
        (df.getLast h).close > (df.getLast h).ma200 ∧
        (df.getLast h).volatility > 15) := by
  have hL : df.getLast? = some (df.getLast h) := List.getLast?_eq_getLast df h
  unfold generate_trading_signals
  rw [hL]
  dsimp only
  constructor
  · rintro ⟨r, hr, ht⟩
    rcases List.mem_append.mp hr with hm | hm
    · split at hm
      · rename_i hcond
        simp only [Bool.and_eq_true, decide_eq_true_eq] at hcond
        exact ⟨hcond.1.1, hcond.1.2, hcond.2⟩
      · simp at hm
    · split at hm
      · simp only [List.mem_singleton] at hm
        subst hm
        simp at ht
      · simp at hm
  · rintro ⟨h1, h2, h3⟩
    rw [if_pos (by simp only [Bool.and_eq_true, decide_eq_true_eq]; exact ⟨⟨h1, h2⟩, h3⟩)]
    exact ⟨_, List.mem_append_left _ (List.mem_singleton.mpr rfl), rfl⟩

/-- A one-row augmented frame on which the buy rule fires
(`pct_change_1d = -6`, `close = 110 > ma200 = 100`, `volatility = 20`). -/
def buyFrame : List AugRow := [⟨0, 110, 50, 1, 100, 1000, 0, -6, 20⟩]

/-- Witness for C2's amended theorem at `buyFrame`. -/
theorem buy_signal_iff_witness :
    (buyFrame ≠ []) ∧ (∃ r ∈ generate_trading_signals buyFrame, r.type = "buy") :=
  ⟨by decide,
    (buy_signal_iff buyFrame (by decide)).mpr
      (by refine ⟨?_, ?_, ?_⟩ <;> with_unfolding_all decide)⟩

/-- The spec's trailing-3-bar sum of `pct_change_1d`
(`df['pct_change_1d'].tail(3).sum()` in the `.github` variant; the
working strategies code does not evaluate it). -/
def pctTail3Sum (df : List AugRow) : ℚ :=
  ((df.map (·.pct_change_1d)).drop (df.length - 3)).sum

/-- A three-row augmented frame whose latest bar has
`pct_change_1d = -4` (not `< -5`) while the trailing-3-bar sum is `-12 <
-10`, with `close = 110 > ma200 = 100` and `volatility = 20 > 15`. -/
def orFrame : List AugRow :=
  [⟨0, 110, 50, 1, 100, 1000, 0, -4, 20⟩,
   ⟨1, 110, 50, 1, 100, 1000, 0, -4, 20⟩,
   ⟨2, 110, 50, 1, 100, 1000, 0, -4, 20⟩]

/-- C2 counterexample: on `orFrame` the claim's condition (the
disjunction's second branch holds: trailing-3-bar sum `< -10`, with
`close > ma200` and `volatility > 15`) is satisfied, yet the strategies
engine emits no record at all — the claimed "if and only if" fails. -/
theorem buy_or_variant_refuted :
    ¬ ((((orFrame.getLast (by decide)).pct_change_1d < -5 ∨ pctTail3Sum orFrame < -10) ∧
          (orFrame.getLast (by decide)).close > (orFrame.getLast (by decide)).ma200 ∧
          (orFrame.getLast (by decide)).volatility > 15) →
        ∃ r ∈ generate_trading_signals orFrame, r.type = "buy") := by
  with_unfolding_all decide

theorem slope_match_true (o : Option ℚ) :
    ((match o with
      | some mn => decide (mn > 2)
      | none => false) = true) ↔ ∃ mn, o = some mn ∧ mn > 2 := by
  cases o with
  | none => simp
  | some mn => simp

/-- C3: the sell record is emitted iff `rsi > 70`, `close > bb_upper` and
the mean of the 3-bar `ma50` difference exceeds 2 on the latest row; in
particular it is emitted whenever the latest row has `rsi = 75`,
`close > bb_upper` and mean difference `= 3`. -/
theorem sell_signal_iff :
    (∀ (df : List AugRow) (h : df ≠ []),
      (∃ r ∈ generate_trading_signals df, r.type = "sell") ↔
        ((df.getLast h).rsi > 70 ∧
          (df.getLast h).close > (df.getLast h).bb_upper ∧
          ∃ mn, ma50Diff3Mean df = some mn ∧ mn > 2)) ∧
    (∀ (df : List AugRow) (h : df ≠ []),
      (df.getLast h).rsi = 75 →
      (df.getLast h).close > (df.getLast h).bb_upper →
      ma50Diff3Mean df = some 3 →
      ∃ r ∈ generate_trading_signals df, r.type = "sell") := by
  have part1 : ∀ (df : List AugRow) (h : df ≠ []),
      (∃ r ∈ generate_trading_signals df, r.type = "sell") ↔
        ((df.getLast h).rsi > 70 ∧
          (df.getLast h).close > (df.getLast h).bb_upper ∧
          ∃ mn, ma50Diff3Mean df = some mn ∧ mn > 2) := by
    intro df h
    have hL : df.getLast? = some (df.getLast h) := List.getLast?_eq_getLast df h
    unfold generate_trading_signals
    rw [hL]
    dsimp only
    constructor
    · rintro ⟨r, hr, ht⟩
      rcases List.mem_append.mp hr with hm | hm
      · split at hm
        · simp only [List.mem_singleton] at hm
          subst hm
          simp at ht
        · simp at hm
      · split at hm
        · rename_i hcond
          simp only [Bool.and_eq_true, decide_eq_true_eq] at hcond
          exact ⟨hcond.1.1, hcond.1.2, (slope_match_true _).mp hcond.2⟩
        · simp at hm
    · rintro ⟨h1, h2, h3⟩
      refine ⟨{ type := "sell"
                title := "🟩 VENTE - Surachat"
                details := ["RSI: " ++ fmtFixed 1 (df.getLast h).rsi,
                            "Bande Sup BB: " ++ fmtFixed 2 (df.getLast h).bb_upper,
                            "Pente MA50: " ++
                              fmtFixed 1 ((ma50Diff3Mean df).getD 0) ++ "%"] },
        List.mem_append_right _ ?_, rfl⟩
      rw [if_pos (by
        simp only [Bool.and_eq_true, decide_eq_true_eq]
        exact ⟨⟨h1, h2⟩, (slope_match_true _).mpr h3⟩)]
      exact List.mem_singleton.mpr rfl
  refine ⟨part1, ?_⟩
  intro df h h75 hbb h3
  exact (part1 df h).mpr ⟨by rw [h75]; norm_num, hbb, 3, h3, by norm_num⟩

/-- A four-row augmented frame on which the sell rule fires
(`rsi = 75`, `close = 100 > bb_upper = 50`, mean 3-bar `ma50` diff `= 3`). -/
def sellFrame : List AugRow :=
  [⟨0, 100, 75, 0, 1000, 50, 0, 0, 0⟩,
   ⟨1, 100, 75, 0, 1000, 50, 0, 0, 0⟩,
   ⟨2, 100, 75, 0, 1000, 50, 0, 0, 0⟩,
   ⟨3, 100, 75, 3, 1000, 50, 0, 0, 0⟩]

/-- Witness for C3 at `sellFrame`. -/
theorem sell_signal_iff_witness :
    (sellFrame ≠ []) ∧ ((sellFrame.getLast (by decide)).rsi = 75) ∧
      (ma50Diff3Mean sellFrame = some 3) ∧
      (∃ r ∈ generate_trading_signals sellFrame, r.type = "sell") :=
  ⟨by decide, by with_unfolding_all decide, by with_unfolding_all decide,
    sell_signal_iff.2 sellFrame (by decide) (by with_unfolding_all decide)
      (by with_unfolding_all decide) (by with_unfolding_all decide)⟩

/-- C6 (amended): the signal engine is a pure function of the latest row
together with the whole-series mean of the 3-bar `ma50` difference — two
augmented series agreeing on those two produce identical signal lists. -/
theorem signals_function_of_last_and_slope (s1 s2 : List AugRow)
    (h1 : s1.getLast? = s2.getLast?) (h2 : ma50Diff3Mean s1 = ma50Diff3Mean s2) :
    generate_trading_signals s1 = generate_trading_signals s2 := by
  unfold generate_trading_signals
  rw [h1, h2]

/-- Four earlier rows (high `ma50`) prepended to `sellFrame` in the C6
counterexample. -/
def junkFrame : List AugRow :=
  [⟨-4, 100, 75, 100, 1000, 50, 0, 0, 0⟩,
   ⟨-3, 100, 75, 100, 1000, 50, 0, 0, 0⟩,
   ⟨-2, 100, 75, 100, 1000, 50, 0, 0, 0⟩,
   ⟨-1, 100, 75, 100, 1000, 50, 0, 0, 0⟩]

/-- C6 counterexample: `sellFrame` and `junkFrame ++ sellFrame` agree on
their last 4 rows, yet the first emits the sell record and the second
emits nothing (the sell rule's `ma50.diff(3).mean()` ranges over the whole
series), refuting the claim that the last `k = 4` rows determine the
output. -/
theorem signals_depend_on_full_series :
    ¬ (∀ s1 s2 : List AugRow,
        s1.drop (s1.length - 4) = s2.drop (s2.length - 4) →
        generate_trading_signals s1 = generate_trading_signals s2) := by
  intro hcl
  have h := hcl sellFrame (junkFrame ++ sellFrame) (by with_unfolding_all decide)
  exact absurd h (by with_unfolding_all decide)

/-- `sellFrame` with only the first row's `rsi` altered: the latest row
and the `ma50` column are unchanged. -/
def sellFrameAlt : List AugRow :=
  [⟨0, 100, 40, 0, 1000, 50, 0, 0, 0⟩,
   ⟨1, 100, 75, 0, 1000, 50, 0, 0, 0⟩,
   ⟨2, 100, 75, 0, 1000, 50, 0, 0, 0⟩,
   ⟨3, 100, 75, 3, 1000, 50, 0, 0, 0⟩]

/-- Witness for C6's amended theorem on two genuinely different series
with the same latest row and the same `ma50` slope mean. -/
theorem signals_function_of_last_and_slope_witness :
    (sellFrame.getLast? = sellFrameAlt.getLast?) ∧
      (ma50Diff3Mean sellFrame = ma50Diff3Mean sellFrameAlt) ∧
      generate_trading_signals sellFrame = generate_trading_signals sellFrameAlt :=
  ⟨by with_unfolding_all decide, by with_unfolding_all decide,
    signals_function_of_last_and_slope sellFrame sellFrameAlt
      (by with_unfolding_all decide) (by with_unfolding_all decide)⟩

/-- A two-row advice frame whose latest `macd` (1) differs from its
`macd_signal` (0); `rsi = 50` and equal closes keep every earlier branch
quiet. -/
def adviceFrame : List AdviceRow := [⟨1, 50, 1, 0, 0, 0⟩, ⟨1, 50, 1, 0, 0, 0⟩]

/-- C7: on a frame with at least 2 rows and all required columns present,
`get_ia_trading_advice` does not return an advisory string — it raises
`NameError` (the unbound `last_macd_hist`) as soon as the latest MACD
differs from the latest MACD signal. -/
theorem advice_raises_name_error :
    get_ia_trading_advice adviceFrame =
      .error "NameError: name 'last_macd_hist' is not defined" := by
  with_unfolding_all rfl

/-- A 20-bar frame for the C4 counterexample. -/
def c4bars : List Bar := (List.range 20).map fun i => ⟨i, 1⟩

/-- C4 counterexample: if an exception occurs in the third column
assignment (`ma200`) of the strategies `calculate_technical_indicators`,
the `except` branch returns the frame as mutated so far: `rsi` and `ma50`
are populated, the five remaining indicator columns are absent, and all
input rows are retained — a partial indicator set, not a single failure,
and it is exactly what `main()` passes on to `generate_trading_signals`. -/
theorem partial_frame_returned_on_exn :
    ((calculate_technical_indicators_exn (some 2) c4bars).rsi.isSome = true) ∧
      ((calculate_technical_indicators_exn (some 2) c4bars).ma50.isSome = true) ∧
      ((calculate_technical_indicators_exn (some 2) c4bars).ma200 = none) ∧
      ((calculate_technical_indicators_exn (some 2) c4bars).volatility = none) ∧
      ((calculate_technical_indicators_exn (some 2) c4bars).bars = c4bars) := by
  refine ⟨?_, ?_, ?_, ?_, ?_⟩ <;> with_unfolding_all decide

/-- C4 (amended): an exception during indicator computation is surfaced as
a single failure by the other two variants — `calculate_indicators`
(`Crypto_Momouss.py`) returns `None`, and the workflows variant returns an
empty frame, on which the signal engine emits nothing — but the strategies
variant returns the partially mutated frame instead. -/
theorem indicator_exn_single_failure :
    (∀ (k : Nat) (cfg : IndicatorsConfig) (bars : List Bar),
      k < mainStepCount cfg → calculate_indicators_exn (some k) cfg bars = none) ∧
    (∀ (k : Nat) (bars : List Bar), k < 7 →
      calculate_technical_indicators_wf (some k) bars = [] ∧
      generate_trading_signals (calculate_technical_indicators_wf (some k) bars) = []) := by
  constructor
  · intro k cfg bars hk
    unfold calculate_indicators_exn
    dsimp only
    rw [if_pos hk]
  · intro k bars hk
    unfold calculate_technical_indicators_wf
    dsimp only
    rw [if_pos hk]
    exact ⟨rfl, rfl⟩

/-- Witness for C4's amended theorem at concrete step/configuration. -/
theorem indicator_exn_single_failure_witness :
    (0 < mainStepCount cfgNoExtras) ∧
      (calculate_indicators_exn (some 0) cfgNoExtras c4bars = none) ∧ (0 < 7) ∧
      (calculate_technical_indicators_wf (some 0) c4bars = []) :=
  ⟨by decide,
    indicator_exn_single_failure.1 0 cfgNoExtras c4bars (by decide),
    by decide,
    (indicator_exn_single_failure.2 0 c4bars (by decide)).1⟩

/-! ### Behaviour of the indicator columns on a constant series -/

theorem ratSqrt_zero : ratSqrt 0 = 0 := by
  norm_num [ratSqrt]

theorem sum_of_const (l : List ℚ) (c : ℚ) (h : ∀ x ∈ l, x = c) :
    l.sum = (l.length : ℚ) * c := by
  rw [List.eq_replicate_length.mpr h, List.sum_replicate, nsmul_eq_mul,
    List.length_replicate]

theorem stdPop_const (l : List ℚ) (c : ℚ) (hl : l ≠ []) (h : ∀ x ∈ l, x = c) :
    stdPop l = 0 := by
  have hn : (l.length : ℚ) ≠ 0 := by
    have hpos := List.length_pos.mpr hl
    exact Nat.cast_ne_zero.mpr (by omega)
  unfold stdPop
  dsimp only
  have hm : l.sum / (l.length : ℚ) = c := by
    rw [sum_of_const l c h, mul_div_cancel_left₀ _ hn]
  have hz : ∀ y ∈ l.map (fun x => (x - l.sum / (l.length : ℚ)) ^ 2), y = 0 := by
    intro y hy
    obtain ⟨x, hx, rfl⟩ := List.mem_map.mp hy
    rw [hm, h x hx]
    ring
  rw [sum_of_const _ 0 hz, mul_zero, zero_div, ratSqrt_zero]

theorem stdSample_const (l : List ℚ) (c : ℚ) (hl : l ≠ []) (h : ∀ x ∈ l, x = c) :
    stdSample l = 0 := by
  have hn : (l.length : ℚ) ≠ 0 := by
    have hpos := List.length_pos.mpr hl
    exact Nat.cast_ne_zero.mpr (by omega)
  unfold stdSample
  dsimp only
  have hm : l.sum / (l.length : ℚ) = c := by
    rw [sum_of_const l c h, mul_div_cancel_left₀ _ hn]
  have hz : ∀ y ∈ l.map (fun x => (x - l.sum / (l.length : ℚ)) ^ 2), y = 0 := by
    intro y hy
    obtain ⟨x, hx, rfl⟩ := List.mem_map.mp hy
    rw [hm, h x hx]
    ring
  rw [sum_of_const _ 0 hz, mul_zero, zero_div, ratSqrt_zero]

theorem valAt_const {bars : List Bar} {c : ℚ} (hc : ∀ b ∈ bars, b.close = c)
    {t : Nat} (ht : t < bars.length) : valAt (closesOf bars) t = c := by
  have hg : (closesOf bars)[t]? = some bars[t].close := by
    rw [closesOf, List.getElem?_map, List.getElem?_eq_getElem ht, Option.map_some']
  rw [valAt, List.get?_eq_getElem?, hg, Option.getD_some]
  exact hc bars[t] (List.getElem_mem ht)

theorem diffF_const {bars : List Bar} {c : ℚ} (hc : ∀ b ∈ bars, b.close = c)
    {t : Nat} (ht : t < bars.length) : diffF (closesOf bars) t = 0 := by
  unfold diffF
  split
  · rfl
  · rw [valAt_const hc ht, valAt_const hc (by omega), sub_self]

theorem upF_const {bars : List Bar} {c : ℚ} (hc : ∀ b ∈ bars, b.close = c)
    {t : Nat} (ht : t < bars.length) : upF (closesOf bars) t = 0 := by
  unfold upF
  rw [diffF_const hc ht]
  simp

theorem dnF_const {bars : List Bar} {c : ℚ} (hc : ∀ b ∈ bars, b.close = c)
    {t : Nat} (ht : t < bars.length) : dnF (closesOf bars) t = 0 := by
  unfold dnF
  rw [diffF_const hc ht]
  simp

theorem emaAt_zero (a : ℚ) (x : Nat → ℚ) :
    ∀ t, (∀ i ≤ t, x i = 0) → emaAt a x t = 0 := by
  intro t
  induction t with
  | zero => intro h; exact h 0 (by omega)
  | succ t ih =>
    intro h
    unfold emaAt
    rw [ih (fun i hi => h i (by omega)), h (t + 1) (by omega)]
    ring

theorem rsiF_const {bars : List Bar} {c : ℚ} (hc : ∀ b ∈ bars, b.close = c)
    {t : Nat} (h13 : 13 ≤ t) (ht : t < bars.length) :
    rsiF (closesOf bars) 14 t = some 100 := by
  unfold rsiF
  rw [if_pos (by omega)]
  dsimp only
  rw [emaAt_zero _ (dnF (closesOf bars)) t (fun i hi => dnF_const hc (by omega))]
  simp

theorem windowAt_const {bars : List Bar} {c : ℚ} (hc : ∀ b ∈ bars, b.close = c) :
    ∀ w t, ∀ x ∈ windowAt (closesOf bars) w t, x = c := by
  intro w t x hx
  have hx2 : x ∈ closesOf bars := List.mem_of_mem_drop (List.mem_of_mem_take hx)
  obtain ⟨b, hb, rfl⟩ := List.mem_map.mp hx2
  exact hc b hb

theorem windowAt_length {closes : List ℚ} {w t : Nat} (hw : w ≤ t + 1)
    (ht : t < closes.length) : (windowAt closes w t).length = w := by
  rw [windowAt, List.length_take, List.length_drop]
  omega

theorem windowAt_ne_nil {closes : List ℚ} {w t : Nat} (hw : w ≤ t + 1)
    (ht : t < closes.length) (hw0 : w ≠ 0) : windowAt closes w t ≠ [] := by
  intro hnil
  have hlen := windowAt_length hw ht
  rw [hnil] at hlen
  simp at hlen
  omega

theorem smaF_const {bars : List Bar} {c : ℚ} (hc : ∀ b ∈ bars, b.close = c)
    {w t : Nat} (hw : w ≤ t + 1) (ht : t < bars.length) (hw0 : w ≠ 0) :
    smaF (closesOf bars) w t = some c := by
  have hlen : t < (closesOf bars).length := by
    rw [closesOf, List.length_map]
    exact ht
  unfold smaF
  rw [if_pos hw]
  congr 1
  rw [sum_of_const _ c (windowAt_const hc w t), windowAt_length hw hlen,
    mul_div_cancel_left₀ _ (show (w : ℚ) ≠ 0 by exact_mod_cast hw0)]

theorem bbUpperF_const {bars : List Bar} {c : ℚ} (hc : ∀ b ∈ bars, b.close = c)
    {w dev t : Nat} (hw : w ≤ t + 1) (ht : t < bars.length) (hw0 : w ≠ 0) :
    bbUpperF (closesOf bars) w dev t = some c := by
  have hlen : t < (closesOf bars).length := by
    rw [closesOf, List.length_map]
    exact ht
  unfold bbUpperF
  rw [if_pos hw]
  congr 1
  rw [stdPop_const _ c (windowAt_ne_nil hw hlen hw0) (windowAt_const hc w t),
    sum_of_const _ c (windowAt_const hc w t), windowAt_length hw hlen,
    mul_div_cancel_left₀ _ (show (w : ℚ) ≠ 0 by exact_mod_cast hw0)]
  ring

theorem rawPctF_const {bars : List Bar} {c : ℚ} (hc : ∀ b ∈ bars, b.close = c)
    {t : Nat} (h1 : 1 ≤ t) (ht : t < bars.length) :
    rawPctF (closesOf bars) t = some 0 := by
  unfold rawPctF
  rw [if_neg (by omega), valAt_const hc ht, valAt_const hc (by omega), sub_self,
    zero_div]

theorem pctF_const {bars : List Bar} {c : ℚ} (hc : ∀ b ∈ bars, b.close = c)
    {t : Nat} (h1 : 1 ≤ t) (ht : t < bars.length) :
    pctF (closesOf bars) t = some 0 := by
  unfold pctF
  rw [rawPctF_const hc h1 ht, Option.map_some', zero_mul]

theorem volF_const {bars : List Bar} {c : ℚ} (hc : ∀ b ∈ bars, b.close = c)
    {t : Nat} (h14 : 14 ≤ t) (ht : t < bars.length) :
    volF (closesOf bars) t = some 0 := by
  have hps : ((List.range 14).map fun j => rawPctF (closesOf bars) (t - 13 + j)) =
      List.replicate 14 (some (0 : ℚ)) := by
    have hall : ∀ j ∈ List.range 14,
        rawPctF (closesOf bars) (t - 13 + j) = some 0 := by
      intro j hj
      have hj14 := List.mem_range.mp hj
      exact rawPctF_const hc (by omega) (by omega)
    rw [List.map_congr_left hall]
    simp
  unfold volF
  rw [hps]
  rw [if_pos (by simp)]
  congr 1
  rw [List.map_replicate, Option.getD_some,
    stdSample_const _ 0 (by simp) (fun x hx => List.eq_of_mem_replicate hx),
    zero_mul]

/-! ### C8: the pipeline on a constant-price series -/

theorem stratRow_rsi {bars : List Bar} {c : ℚ} (hc : ∀ b ∈ bars, b.close = c)
    {t : Nat} (h199 : 199 ≤ t) (ht : t < bars.length) :
    (stratRow bars t).rsi = 100 := by
  unfold stratRow
  dsimp only
  rw [rsiF_const hc (by omega) ht, Option.getD_some]

theorem stratRow_vol {bars : List Bar} {c : ℚ} (hc : ∀ b ∈ bars, b.close = c)
    {t : Nat} (h199 : 199 ≤ t) (ht : t < bars.length) :
    (stratRow bars t).volatility = 0 := by
  unfold stratRow
  dsimp only
  rw [volF_const hc (by omega) ht, Option.getD_some]

theorem stratRow_pct {bars : List Bar} {c : ℚ} (hc : ∀ b ∈ bars, b.close = c)
    {t : Nat} (h199 : 199 ≤ t) (ht : t < bars.length) :
    (stratRow bars t).pct_change_1d = 0 := by
  unfold stratRow
  dsimp only
  rw [pctF_const hc (by omega) ht, Option.getD_some]

theorem stratRow_close {bars : List Bar} {c : ℚ} (hc : ∀ b ∈ bars, b.close = c)
    {t : Nat} (ht : t < bars.length) : (stratRow bars t).close = c := by
  unfold stratRow
  dsimp only
  exact valAt_const hc ht

theorem stratRow_bb {bars : List Bar} {c : ℚ} (hc : ∀ b ∈ bars, b.close = c)
    {t : Nat} (h199 : 199 ≤ t) (ht : t < bars.length) :
    (stratRow bars t).bb_upper = c := by
  unfold stratRow
  dsimp only
  rw [bbUpperF_const hc (by omega) ht (by omega), Option.getD_some]

theorem calcTech_mem_bounds {bars : List Bar} {r : AugRow}
    (hr : r ∈ calculate_technical_indicators bars) :
    ∃ t, 199 ≤ t ∧ t < bars.length ∧ r = stratRow bars t := by
  unfold calculate_technical_indicators at hr
  obtain ⟨t, htf, rfl⟩ := List.mem_map.mp hr
  obtain ⟨htr, hsur⟩ := List.mem_filter.mp htf
  rw [stratSurvive_eq bars t] at hsur
  exact ⟨t, of_decide_eq_true hsur, List.mem_range.mp htr, rfl⟩

/-- C8 (amended): on every constant positive-price series of at least 200
bars, the augmented frame has `rsi = 100` (not 50: the Wilder convention
for zero average loss) and `volatility = 0` on every row, and the signal
engine emits neither record. -/
theorem constant_series_rsi100_vol0_no_signals (bars : List Bar) (c : ℚ)
    (_h200 : 200 ≤ bars.length) (hc : ∀ b ∈ bars, b.close = c) (_hpos : 0 < c) :
    (∀ r ∈ calculate_technical_indicators bars, r.rsi = 100 ∧ r.volatility = 0) ∧
      generate_trading_signals (calculate_technical_indicators bars) = [] := by
  constructor
  · intro r hr
    obtain ⟨t, h199, ht, rfl⟩ := calcTech_mem_bounds hr
    exact ⟨stratRow_rsi hc h199 ht, stratRow_vol hc h199 ht⟩
  · cases hL : (calculate_technical_indicators bars).getLast? with
    | none =>
      unfold generate_trading_signals
      rw [hL]
    | some r =>
      have hmem : r ∈ calculate_technical_indicators bars :=
        List.mem_of_mem_getLast? hL
      obtain ⟨t, h199, ht, rfl⟩ := calcTech_mem_bounds hmem
      unfold generate_trading_signals
      rw [hL]
      dsimp only
      rw [stratRow_pct hc h199 ht, stratRow_close hc ht, stratRow_bb hc h199 ht]
      rw [show decide ((0 : ℚ) < -5) = false from by norm_num,
        show decide (c > c) = false from by simp]
      simp

/-- Witness for C8's amended theorem at the concrete constant series. -/
theorem constant_series_rsi100_vol0_no_signals_witness :
    (200 ≤ bars200.length) ∧ (∀ b ∈ bars200, b.close = 1) ∧ ((0 : ℚ) < 1) ∧
      ((∀ r ∈ calculate_technical_indicators bars200, r.rsi = 100 ∧ r.volatility = 0) ∧
        generate_trading_signals (calculate_technical_indicators bars200) = []) :=
  ⟨by with_unfolding_all decide, by with_unfolding_all decide, by norm_num,
    constant_series_rsi100_vol0_no_signals bars200 1 (by with_unfolding_all decide)
      (by with_unfolding_all decide) (by norm_num)⟩

/-- C8 counterexample: on the 200-bar constant series the augmented frame
is non-empty and its row carries `rsi = 100`, refuting `RSI = 50`. -/
theorem constant_series_rsi_not_50 :
    ¬ (∀ r ∈ calculate_technical_indicators bars200, r.rsi = 50) := by
  with_unfolding_all decide

/-! ### C9: recomputation on the engine's own output -/

theorem valAt_drop (c : List ℚ) (k t : Nat) :
    valAt (c.drop k) t = valAt c (k + t) := by
  rw [valAt, valAt, List.get?_eq_getElem?, List.get?_eq_getElem?,
    List.getElem?_drop]

theorem windowAt_drop (c : List ℚ) {k w t : Nat} (hw : w ≤ t + 1) :
    windowAt (c.drop k) w t = windowAt c w (t + k) := by
  rw [windowAt, windowAt, List.drop_drop]
  congr 2
  omega

theorem smaF_drop (c : List ℚ) {k w t : Nat} (hw : w ≤ t + 1) :
    smaF (c.drop k) w t = smaF c w (t + k) := by
  unfold smaF
  rw [if_pos hw, if_pos (by omega), windowAt_drop c hw]

theorem bbUpperF_drop (c : List ℚ) {k w dev t : Nat} (hw : w ≤ t + 1) :
    bbUpperF (c.drop k) w dev t = bbUpperF c w dev (t + k) := by
  unfold bbUpperF
  rw [if_pos hw, if_pos (by omega), windowAt_drop c hw]

theorem bbLowerF_drop (c : List ℚ) {k w dev t : Nat} (hw : w ≤ t + 1) :
    bbLowerF (c.drop k) w dev t = bbLowerF c w dev (t + k) := by
  unfold bbLowerF
  rw [if_pos hw, if_pos (by omega), windowAt_drop c hw]

theorem rawPctF_drop (c : List ℚ) {k t : Nat} (h1 : 1 ≤ t) :
    rawPctF (c.drop k) t = rawPctF c (t + k) := by
  unfold rawPctF
  rw [if_neg (by omega), if_neg (by omega), valAt_drop, valAt_drop]
  have e1 : k + t = t + k := by omega
  have e2 : k + (t - 1) = t + k - 1 := by omega
  rw [e1, e2]

theorem volF_drop (c : List ℚ) {k t : Nat} (h14 : 14 ≤ t) :
    volF (c.drop k) t = volF c (t + k) := by
  have hmaps : ((List.range 14).map fun j => rawPctF (c.drop k) (t - 13 + j)) =
      (List.range 14).map fun j => rawPctF c (t + k - 13 + j) := by
    apply List.map_congr_left
    intro j hj
    have hj14 := List.mem_range.mp hj
    rw [rawPctF_drop c (by omega)]
    congr 1
    omega
  unfold volF
  rw [hmaps]

theorem list_eq_range_map (l : List ℚ) :
    l = (List.range l.length).map (fun t => valAt l t) := by
  apply List.ext_getElem (by simp)
  intro i h1 h2
  simp [List.getElem_map, List.getElem_range, valAt, List.get?_eq_getElem?,
    List.getElem?_eq_getElem h1]

theorem closesOf_recompute (bars : List Bar) :
    closesOf ((calculate_indicators cfgNoExtras bars).map mainRowBar) =
      (closesOf bars).drop 99 := by
  have hn : (closesOf bars).length = bars.length := by
    rw [closesOf, List.length_map]
  conv_rhs => rw [list_eq_range_map (closesOf bars)]
  rw [← List.map_drop, hn, calculate_indicators_noExtras_eq_drop, closesOf,
    List.map_map, List.map_map]
  rfl

theorem mainRow_recompute (bars : List Bar) (i : Nat) (h : 198 + i < bars.length) :
    mainRow cfgNoExtras ((calculate_indicators cfgNoExtras bars).map mainRowBar)
        (99 + i) =
      mainRow cfgNoExtras bars (198 + i) := by
  have hc2 := closesOf_recompute bars
  have e : 99 + (99 + i) = 198 + i := by omega
  have hdate : ((calculate_indicators cfgNoExtras bars).map mainRowBar).get? (99 + i) =
      some (mainRowBar (mainRow cfgNoExtras bars (198 + i))) := by
    rw [calculate_indicators_noExtras_eq_drop, List.get?_eq_getElem?,
      List.getElem?_map, List.getElem?_map, List.getElem?_drop,
      List.getElem?_range (show 99 + (99 + i) < bars.length by omega),
      Option.map_some', Option.map_some', e]
  unfold mainRow
  dsimp only [cfgNoExtras]
  simp only [cfgNoExtras] at hc2 hdate
  rw [MainRow.mk.injEq]
  refine ⟨?_, ?_, rfl, rfl, rfl, rfl, rfl, rfl, rfl, ?_, ?_, ?_, ?_⟩
  · rw [hdate, Option.getD_some]
    rfl
  · rw [hc2, valAt_drop, e]
  · rw [hc2, smaF_drop (closesOf bars) (by omega)]
    congr 1
    omega
  · rw [hc2, smaF_drop (closesOf bars) (by omega)]
    congr 1
    omega
  · rw [hc2, smaF_drop (closesOf bars) (by omega)]
    congr 1
    omega
  · rw [hc2, volF_drop (closesOf bars) (by omega)]
    congr 1
    omega

/-- C9 (amended): with the configuration selecting no optional indicators
(only the unconditional `ma20/ma50/ma100` and `volatility` columns, all
trailing-window functions of `close`), feeding `calculate_indicators`' own
output back through it with the identical configuration yields exactly the
rows of the first result (the second `dropna()` removes a further 99
leading rows, and every surviving row is reproduced identically). -/
theorem recompute_trailing_window_idempotent (bars : List Bar)
    (_hpos : ∀ b ∈ bars, 0 < b.close) :
    calculate_indicators cfgNoExtras
        ((calculate_indicators cfgNoExtras bars).map mainRowBar) =
      (calculate_indicators cfgNoExtras bars).drop 99 := by
  have hlen2 : ((calculate_indicators cfgNoExtras bars).map mainRowBar).length =
      bars.length - 99 := by
    rw [List.length_map, calculate_indicators_noExtras_eq_drop, List.length_map,
      List.length_drop, List.length_range]
  conv_lhs => rw [calculate_indicators_noExtras_eq_drop]
  conv_rhs => rw [calculate_indicators_noExtras_eq_drop]
  rw [hlen2, ← List.map_drop, List.drop_drop]
  apply List.ext_getElem?
  intro i
  rw [List.getElem?_map, List.getElem?_map, List.getElem?_drop, List.getElem?_drop]
  by_cases h : 198 + i < bars.length
  · rw [List.getElem?_range (show 99 + i < bars.length - 99 by omega),
      List.getElem?_range (show 99 + 99 + i < bars.length by omega),
      Option.map_some', Option.map_some',
      show 99 + 99 + i = 198 + i from by omega]
    exact congrArg some (mainRow_recompute bars i h)
  · rw [List.getElem?_eq_none (by rw [List.length_range]; omega),
      List.getElem?_eq_none (by rw [List.length_range]; omega),
      Option.map_none', Option.map_none']

/-- A 199-bar constant positive series for the C9 witness. -/
def bars199 : List Bar := (List.range 199).map fun i => ⟨i, 1⟩

/-- Witness for C9's amended theorem. -/
theorem recompute_trailing_window_idempotent_witness :
    (∀ b ∈ bars199, 0 < b.close) ∧
      calculate_indicators cfgNoExtras
          ((calculate_indicators cfgNoExtras bars199).map mainRowBar) =
        (calculate_indicators cfgNoExtras bars199).drop 99 :=
  ⟨by with_unfolding_all decide,
    recompute_trailing_window_idempotent bars199 (by with_unfolding_all decide)⟩

/-- An RSI window of 2, selectable in the sidebar (`st.sidebar.slider
("Période RSI", 2, 30, 14)`), with the other optional indicators off. -/
def cfgRsi2 : IndicatorsConfig := ⟨some 2, none, none⟩

/-- 199 bars of close 1 with a single bump to 2 at index 1. -/
def barsBump : List Bar := (List.range 199).map fun i => ⟨i, if i = 1 then 2 else 1⟩

/-- The first result of `calculate_indicators` on `barsBump`, fed back as
the input of the second run. -/
def recomputeInput : List Bar := (calculate_indicators cfgRsi2 barsBump).map mainRowBar

/-- C9 counterexample: recomputing the indicators on the engine's own
output with the identical configuration does not reproduce the RSI: the
rows of date 198 from the two runs carry `rsi = 100` (second run, constant
history) versus `rsi = 100/3` (first run, which still remembers the early
bump through the exponential smoothing). -/
theorem recompute_changes_rsi :
    ¬ (∀ r2 ∈ calculate_indicators cfgRsi2 recomputeInput,
        ∀ r1 ∈ calculate_indicators cfgRsi2 barsBump,
          r1.date = r2.date → r1.rsi = r2.rsi) := by
  intro hcl
  have hA : (calculate_indicators cfgRsi2 recomputeInput).getLast?.map
      (fun r => (r.date, r.rsi)) = some ((198 : Int), some (100 : ℚ)) := by
    with_unfolding_all decide
  have hB : (calculate_indicators cfgRsi2 barsBump).getLast?.map
      (fun r => (r.date, r.rsi)) = some ((198 : Int), some ((100 : ℚ) / 3)) := by
    with_unfolding_all decide
  cases e2 : (calculate_indicators cfgRsi2 recomputeInput).getLast? with
  | none =>
    rw [e2, Option.map_none'] at hA
    exact absurd hA (by simp)
  | some r2 =>
    cases e1 : (calculate_indicators cfgRsi2 barsBump).getLast? with
    | none =>
      rw [e1, Option.map_none'] at hB
      exact absurd hB (by simp)
    | some r1 =>
      rw [e2, Option.map_some'] at hA
      rw [e1, Option.map_some'] at hB
      have hA' := Option.some.inj hA
      have hB' := Option.some.inj hB
      have hA1 : r2.date = (198 : Int) := congrArg Prod.fst hA'
      have hB1 : r1.date = (198 : Int) := congrArg Prod.fst hB'
      have hd : r1.date = r2.date := by rw [hA1, hB1]
      have hrsi := hcl r2 (List.mem_of_mem_getLast? e2) r1
        (List.mem_of_mem_getLast? e1) hd
      have hA2 : r2.rsi = some (100 : ℚ) := congrArg Prod.snd hA'
      have hB2 : r1.rsi = some ((100 : ℚ) / 3) := congrArg Prod.snd hB'
      rw [hA2, hB2] at hrsi
      have hval : (100 : ℚ) / 3 = 100 := Option.some.inj hrsi
      norm_num at hval
